import Mathlib

/-!
Verification development for the benchci repository: a shallow embedding of
the benchmark-regression orchestration in `types.go` (configuration
defaulting, version-constraint matching, latest-release resolution, the
`run` orchestration with its deferred worktree restore, the comparison loop
and the regression classifier), together with the parts of the external
`blang/semver/v4` library that `versionRequired` and `getLatestRelease`
call into.  Machine floats (`float64`) are modelled as rationals, git
hashes as naturals, and the external effects (git, subprocess benchmark
runs) as an explicit world record threaded through `run`.
-/

namespace Benchci

/-! ## Go string primitives used by the repository

Strings are modelled through their character lists.  `goIsSpace` models
`unicode.IsSpace` on the Latin-1 range (the space runes outside Latin-1
recognised by Go are irrelevant to every input considered here and are
omitted).  `goTrimSpace`, `goTrimLeft`, `goSplit` and `goSplitN` model
`strings.TrimSpace`, `strings.TrimLeft` (cutset semantics),
`strings.Split` and `strings.SplitN`.
-/

def goIsSpace (c : Char) : Bool :=
  c = ' ' || c = '\t' || c = '\n' || c = '\x0b' || c = '\x0c' || c = '\r' ||
  c = '\u0085' || c = '\u00A0'

/-- Drop satisfying characters from both ends (`List.rdropWhile p l` is
`(l.reverse.dropWhile p).reverse`). -/
def trimList (p : Char → Bool) (l : List Char) : List Char :=
  List.rdropWhile p (l.dropWhile p)

def goTrimSpace (s : String) : String :=
  String.mk (trimList goIsSpace s.data)

/-- Go `strings.TrimLeft(s, cutset)`: drop leading characters contained in the
cutset (NOT a removal of the string `cutset` itself). -/
def goTrimLeft (s cutset : String) : String :=
  String.mk (s.data.dropWhile (fun c => cutset.data.contains c))

def listStartsWith : List Char → List Char → Bool
  | _, [] => true
  | [], _ :: _ => false
  | a :: as, b :: bs => a = b && listStartsWith as bs

/-- Go `strings.HasPrefix`. -/
def goStartsWith (s pat : String) : Bool :=
  listStartsWith s.data pat.data

/-- Split a character list at the first occurrence of `sep`:
returns the part before and, when `sep` occurs, the part after. -/
def splitBreak (sep : Char) : List Char → List Char × Option (List Char)
  | [] => ([], none)
  | c :: rest =>
    if c = sep then ([], some rest)
    else
      let r := splitBreak sep rest
      (c :: r.1, r.2)

/-- Go `strings.Split(s, sep)` for a one-character separator. -/
def splitCharAll (sep : Char) : List Char → List (List Char)
  | [] => [[]]
  | c :: rest =>
    if c = sep then [] :: splitCharAll sep rest
    else
      match splitCharAll sep rest with
      | [] => [[c]]
      | h :: t => (c :: h) :: t

/-- Go `strings.SplitN(s, sep, n)` for a one-character separator and `n > 0`:
at most `n` pieces, the last piece being the unsplit remainder. -/
def splitCharN (sep : Char) : Nat → List Char → List (List Char)
  | 0, _ => []
  | 1, l => [l]
  | n + 2, l =>
    match splitBreak sep l with
    | (a, none) => [a]
    | (a, some rest) => a :: splitCharN sep (n + 1) rest

/-! ## The `blang/semver/v4` library, as used by the repository

`semver.Make` (= `Parse`), `Version.Compare` and the derived `GT`, `GTE`,
`Equals`.  `uint64` values are naturals with the `ParseUint` overflow
bound made explicit; a parse failure is `none` (the Go error), and the Go
zero `Version{}` that callers keep when they discard the error is
`zeroVersion`. -/

def semverNumbers : List Char := "0123456789".data

def semverAlphas : List Char :=
  "abcdefghijklmnopqrstuvwxyzABCDEFGHIJKLMNOPQRSTUVWXYZ-".data

def semverAlphanum : List Char := semverAlphas ++ semverNumbers

def containsOnly (s : List Char) (set : List Char) : Bool :=
  s.all (fun c => set.contains c)

def hasLeadingZeroes : List Char → Bool
  | '0' :: _ :: _ => true
  | _ => false

/-- Go `strconv.ParseUint(s, 10, 64)` on an all-digit candidate: fails on the
empty string, a non-digit, or overflow past `2^64 - 1`. -/
def parseUintGo (s : List Char) : Option Nat :=
  if s.isEmpty then none
  else if s.all Char.isDigit then
    let n := s.foldl (fun acc c => 10 * acc + (c.toNat - 48)) 0
    if n < 2 ^ 64 then some n else none
  else none

/-- Model of `semver.PRVersion`: numeric or alphanumeric pre-release identifier. -/
inductive PRVersion where
  | num (n : Nat)
  | alphanum (s : List Char)
deriving DecidableEq, Repr

/-- Model of `semver.NewPRVersion`. -/
def newPRVersion (s : List Char) : Option PRVersion :=
  if s.isEmpty then none
  else if containsOnly s semverNumbers then
    if hasLeadingZeroes s then none
    else (parseUintGo s).map PRVersion.num
  else if containsOnly s semverAlphanum then some (PRVersion.alphanum s)
  else none

structure Version where
  major : Nat
  minor : Nat
  patch : Nat
  pre : List PRVersion
  build : List (List Char)
deriving DecidableEq, Repr

/-- The Go zero value `semver.Version{}`, kept by callers that ignore the
`Make` error. -/
def zeroVersion : Version := ⟨0, 0, 0, [], []⟩

def parsePreList : List (List Char) → Option (List PRVersion)
  | [] => some []
  | s :: rest =>
    match newPRVersion s with
    | none => none
    | some pr => (parsePreList rest).map (pr :: ·)

def parseBuildList : List (List Char) → Option (List (List Char))
  | [] => some []
  | s :: rest =>
    if s.isEmpty then none
    else if containsOnly s semverAlphanum then
      (parseBuildList rest).map (s :: ·)
    else none

/-- Model of `semver.Make` = `semver.Parse`. -/
def semverMake (s : String) : Option Version :=
  let l := s.data
  if l.isEmpty then none
  else
    match splitCharN '.' 3 l with
    | [p0, p1, p2] =>
      if !containsOnly p0 semverNumbers then none
      else if hasLeadingZeroes p0 then none
      else
        match parseUintGo p0 with
        | none => none
        | some major =>
          if !containsOnly p1 semverNumbers then none
          else if hasLeadingZeroes p1 then none
          else
            match parseUintGo p1 with
            | none => none
            | some minor =>
              -- parts[2] = patch, optionally followed by "-pre" and "+build";
              -- the build suffix is detached first, then the pre-release.
              let afterBuild := splitBreak '+' p2
              let build :=
                match afterBuild.2 with
                | none => []
                | some b => splitCharAll '.' b
              let afterPre := splitBreak '-' afterBuild.1
              let pre :=
                match afterPre.2 with
                | none => []
                | some p => splitCharAll '.' p
              if !containsOnly afterPre.1 semverNumbers then none
              else if hasLeadingZeroes afterPre.1 then none
              else
                match parseUintGo afterPre.1 with
                | none => none
                | some patch =>
                  match parsePreList pre with
                  | none => none
                  | some preList =>
                    match parseBuildList build with
                    | none => none
                    | some buildList =>
                      some ⟨major, minor, patch, preList, buildList⟩
    | _ => none

/-- Go `<` on (ASCII) strings: lexicographic byte order. -/
def strCompare : List Char → List Char → Int
  | [], [] => 0
  | [], _ :: _ => -1
  | _ :: _, [] => 1
  | a :: as, b :: bs =>
    if a.toNat < b.toNat then -1
    else if b.toNat < a.toNat then 1
    else strCompare as bs

/-- Model of `semver.PRVersion.Compare`: numeric identifiers sort below
alphanumeric ones, numerics numerically, alphanumerics bytewise. -/
def prCompare : PRVersion → PRVersion → Int
  | .num n, .num m => if n = m then 0 else if n > m then 1 else -1
  | .num _, .alphanum _ => -1
  | .alphanum _, .num _ => 1
  | .alphanum a, .alphanum b => strCompare a b

def preListCompare : List PRVersion → List PRVersion → Int
  | [], [] => 0
  | [], _ :: _ => -1
  | _ :: _, [] => 1
  | a :: as, b :: bs =>
    let c := prCompare a b
    if c = 0 then preListCompare as bs else c

/-- Model of `semver.Version.Compare`: numeric triple, then pre-release precedence
(a release outranks any pre-release); build metadata is ignored. -/
def vCompare (v o : Version) : Int :=
  if v.major ≠ o.major then (if v.major > o.major then 1 else -1)
  else if v.minor ≠ o.minor then (if v.minor > o.minor then 1 else -1)
  else if v.patch ≠ o.patch then (if v.patch > o.patch then 1 else -1)
  else if v.pre.isEmpty && o.pre.isEmpty then 0
  else if v.pre.isEmpty then 1
  else if o.pre.isEmpty then -1
  else preListCompare v.pre o.pre

def Version.gt (v o : Version) : Bool := 0 < vCompare v o
def Version.gte (v o : Version) : Bool := 0 ≤ vCompare v o
def Version.equals (v o : Version) : Bool := vCompare v o = 0

/-- Result of `v, _ := semver.Make(s)`: the version, with a parse failure silently
degraded to the zero version. -/
def makeOrZero (s : String) : Version :=
  (semverMake s).getD zeroVersion

/-! ## Configuration types and the defaulting pass (`types.go`, `updateBenchmarks`)

`float64` thresholds are rationals, the `*bool` Benchmem pointer is an
`Option Bool` (nil = `none`). -/

structure BenchmarkConfiguration where
  benchtime : String
  threshold : ℚ
  compare : String
  cpu : String
  timeout : String
  benchmem : Option Bool
deriving DecidableEq, Repr

structure Benchmark where
  name : String
  package : String
  uniqueName : String
  versionRequirement : String
  config : BenchmarkConfiguration
deriving DecidableEq, Repr

structure BenchmarkList where
  config : BenchmarkConfiguration
  command : String
  benchmarks : List Benchmark
deriving DecidableEq, Repr

/-- Model of `(*BenchmarkConfiguration).applyDefaults`: fill each unset field
(empty string / zero threshold / nil pointer) from `d`. -/
def applyDefaults (c d : BenchmarkConfiguration) : BenchmarkConfiguration :=
  { benchtime := if c.benchtime = "" then d.benchtime else c.benchtime
    threshold := if c.threshold = 0 then d.threshold else c.threshold
    compare := if c.compare = "" then d.compare else c.compare
    cpu := if c.cpu = "" then d.cpu else c.cpu
    timeout := if c.timeout = "" then d.timeout else c.timeout
    benchmem := if c.benchmem = none then d.benchmem else c.benchmem }

/-- One iteration of the `updateBenchmarks` loop body on a benchmark:
default the unique name to the name, then fill the configuration from the
list-level bundle and then from the flag-level bundle (the conditional
assignment touches only `uniqueName` and the `applyDefaults` chain only
the configuration, so the two in-place mutations are one record update). -/
def updateBenchmark (listCfg flagCfg : BenchmarkConfiguration) (b : Benchmark) :
    Benchmark :=
  { name := b.name
    package := b.package
    uniqueName := if b.uniqueName = "" then b.name else b.uniqueName
    versionRequirement := b.versionRequirement
    config := applyDefaults (applyDefaults b.config listCfg) flagCfg }

/-- Model of `updateBenchmarks`, functionally: the in-place mutation of the global
benchmark slice becomes a map over the list. -/
def updateBenchmarks (bs : List Benchmark) (listCfg flagCfg : BenchmarkConfiguration) :
    List Benchmark :=
  bs.map (updateBenchmark listCfg flagCfg)

/-! ## Version-constraint matching (`versionRequired`, `trimTagVersion`) -/

/-- Constant `tagVersionPrefix = "v"`; `trimTagVersion` strips every leading `'v'`
(`strings.TrimLeft` cutset semantics). -/
def trimTagVersion (tagName : String) : String :=
  goTrimLeft tagName "v"

/-- The body of `versionRequired` after the empty check and the
`strings.TrimSpace` re-assignment: `req` plays the trimmed `required`. -/
def versionRequiredTrimmed (req tag : String) : Bool :=
  let tagVer := makeOrZero (trimTagVersion tag)
  if goStartsWith req ">=" then
    Version.gte tagVer (makeOrZero (trimTagVersion (goTrimLeft req ">=")))
  else if goStartsWith req ">" then
    Version.gt tagVer (makeOrZero (trimTagVersion (goTrimLeft req ">")))
  else
    Version.equals tagVer (makeOrZero (trimTagVersion req))

/-- Model of `versionRequired(required, tag)`: empty constraint is always true;
otherwise the constraint is trimmed and dispatched on its `>=` / `>`
operator, with the tag itself never trimmed of whitespace. -/
def versionRequired (required tag : String) : Bool :=
  if required = "" then true
  else versionRequiredTrimmed (goTrimSpace required) tag

/-! ## Latest-release resolution (`getLatestRelease`) -/

/-- A git tag reference: short name plus commit hash (hashes as `Nat`). -/
structure TagRef where
  name : String
  hash : Nat
deriving DecidableEq, Repr

structure SemverTag where
  ref : TagRef
  version : Version
deriving DecidableEq, Repr

/-- Insert into a list sorted in descending `Version.gt` order (models one
outcome of the unstable `sort.Slice`; ties keep the arrival order here,
which `sort.Slice` does not promise, but no property below depends on the
tie order). -/
def insertByGT (x : SemverTag) : List SemverTag → List SemverTag
  | [] => [x]
  | y :: ys =>
    if Version.gt x.version y.version then x :: y :: ys
    else y :: insertByGT x ys

def sortTagsByGT : List SemverTag → List SemverTag
  | [] => []
  | x :: xs => insertByGT x (sortTagsByGT xs)

/-- Model of `getLatestRelease`: enumerate the tags (the `repository.Tags()` error
is the `Except.error` of the argument), pair EVERY tag with its parsed
version — a tag whose name fails to parse is logged "skipping" but still
appended, carrying the zero version — sort descending, and fail only when
the tag list itself is empty. -/
def getLatestRelease (tags : Except String (List TagRef)) : Except String TagRef :=
  match tags with
  | .error e => .error e
  | .ok ts =>
    let tagList := ts.map (fun tagRef =>
      SemverTag.mk tagRef ((semverMake (trimTagVersion tagRef.name)).getD zeroVersion))
    match sortTagsByGT tagList with
    | [] => .error "version tags not found in repository"
    | t :: _ => .ok t.ref

/-! ## Parsed benchmark results and the comparison loop (`run`, lines 307-360)

`parse.Benchmark` keeps only the fields the comparison reads: `NsPerOp`
(`float64`, modelled as `ℚ`) and `AllocedBytesPerOp` (`uint64`, a `Nat`
cast to `ℚ` in the ratio).  A `Set` (Go `map[string]*parse.Benchmark`) is
an association list with `List.lookup`. -/

structure ParseBench where
  name : String
  nsPerOp : ℚ
  allocedBytesPerOp : Nat
deriving DecidableEq, Repr

def Set' := List (String × ParseBench)

def setLookup (s : Set') (key : String) : Option ParseBench :=
  List.lookup key s

/-- The Go `result` struct: a benchmark definition plus the two ratios. -/
structure ResultR where
  benchmark : Benchmark
  ratioNsPerOp : ℚ
  ratioAllocedBytesPerOp : ℚ
deriving DecidableEq, Repr

/-- The `getRationsPerOP` closure from `run`: `prevBench` is the variable
captured from the enclosing loop iteration; the guard reads the captured
`prevBench.NsPerOp` while the quotient divides by the `baseBench`
parameter. -/
def getRationsPerOP (prevBench headBench baseBench : ParseBench) : ℚ :=
  if prevBench.nsPerOp ≠ 0 then
    (headBench.nsPerOp - baseBench.nsPerOp) / baseBench.nsPerOp
  else 0

/-- The `getRatioAllocedBytesPerOp` closure from `run`: same captured
`prevBench` guard, same `baseBench` divisor. -/
def getRatioAllocedBytesPerOp (prevBench headBench baseBench : ParseBench) : ℚ :=
  if prevBench.allocedBytesPerOp ≠ 0 then
    ((headBench.allocedBytesPerOp : ℚ) - (baseBench.allocedBytesPerOp : ℚ)) /
      (baseBench.allocedBytesPerOp : ℚ)
  else 0

/-- A row of the result table, modulo `fmt.Sprintf` formatting: `bench`
models `generateRow(ref, b)`, `missingBaseline` models the literal
placeholder `[]string{benchName, baseRef, "-", "-"}`. -/
inductive Row where
  | bench (ref : String) (b : ParseBench)
  | missingBaseline (benchName ref : String)
deriving DecidableEq, Repr

structure CompareOut where
  rows : List Row
  ratios : List ResultR
  ratiosWithRelease : List ResultR
deriving DecidableEq, Repr

/-- The per-benchmark comparison loop of `run` (`for _, benchmark := range
benchmarks.Benchmarks`), translated with the sequential appends turned
into prepends onto the recursive tail.  A benchmark absent from `headSet`
is logged (`klog.ErrorS`) and skipped with `continue` — no row of any kind
is recorded for it.  A benchmark absent from `prevSet` contributes its
HEAD row plus the missing-baseline placeholder. -/
def compareLoop (headSet prevSet : Set') (latestReleaseSet : Option Set')
    (baseRef tagName : String) : List Benchmark → CompareOut
  | [] => ⟨[], [], []⟩
  | benchmark :: rest =>
    let out := compareLoop headSet prevSet latestReleaseSet baseRef tagName rest
    match setLookup headSet benchmark.uniqueName with
    | none => out
    | some headBench =>
      match setLookup prevSet benchmark.uniqueName with
      | none =>
        { out with rows := Row.bench "HEAD" headBench ::
            Row.missingBaseline benchmark.uniqueName baseRef :: out.rows }
      | some prevBench =>
        let baseRatio : ResultR :=
          ⟨benchmark, getRationsPerOP prevBench headBench prevBench,
            getRatioAllocedBytesPerOp prevBench headBench prevBench⟩
        match latestReleaseSet with
        | none =>
          { rows := Row.bench "HEAD" headBench :: Row.bench baseRef prevBench :: out.rows
            ratios := baseRatio :: out.ratios
            ratiosWithRelease := out.ratiosWithRelease }
        | some relSet =>
          match setLookup relSet benchmark.uniqueName with
          | none =>
            { rows := Row.bench "HEAD" headBench :: Row.bench baseRef prevBench :: out.rows
              ratios := baseRatio :: out.ratios
              ratiosWithRelease := out.ratiosWithRelease }
          | some latestReleaseBench =>
            { rows := Row.bench "HEAD" headBench :: Row.bench baseRef prevBench ::
                Row.bench tagName latestReleaseBench :: out.rows
              ratios := baseRatio :: out.ratios
              ratiosWithRelease :=
                ⟨benchmark, getRationsPerOP prevBench headBench latestReleaseBench,
                  getRatioAllocedBytesPerOp prevBench headBench latestReleaseBench⟩ ::
                out.ratiosWithRelease }

/-! ## Metric selection and regression classification
(`whichScoreToCompare`, `showRatio`) -/

structure ComparedScore where
  nsPerOp : Bool
  allocedBytesPerOp : Bool
deriving DecidableEq, Repr

/-- Model of `whichScoreToCompare`: split the compare string on `','` (no
whitespace trimming) and recognise exactly the tokens `"ns/op"` and
`"B/op"`; anything else is ignored. -/
def whichScoreToCompare (c : String) : ComparedScore :=
  (splitCharAll ',' c.data).foldl
    (fun acc cc =>
      if cc = "ns/op".data then { acc with nsPerOp := true }
      else if cc = "B/op".data then { acc with allocedBytesPerOp := true }
      else acc)
    ⟨false, false⟩

/-- A rendered ratio-table row, modulo formatting and colors: `none`
cells are the `"-"` of an unselected metric. -/
structure RatioRow where
  name : String
  nsCell : Option ℚ
  bytesCell : Option ℚ
deriving DecidableEq, Repr

def mkRatioRow (r : ResultR) (cs : ComparedScore) : RatioRow :=
  { name := r.benchmark.name
    nsCell := if cs.nsPerOp then some r.ratioNsPerOp else none
    bytesCell := if cs.allocedBytesPerOp then some r.ratioAllocedBytesPerOp else none }

/-- One iteration of the `showRatio` loop: set the sticky `regression`
flag when a selected metric's ratio strictly exceeds the threshold, and
append the row unless nothing regressed and `onlyRegression` asks to skip
it. -/
def showRatioStep (onlyRegression : Bool) (acc : List RatioRow × Bool)
    (r : ResultR) : List RatioRow × Bool :=
  let comparedScore := whichScoreToCompare r.benchmark.config.compare
  if comparedScore.nsPerOp && decide (r.benchmark.config.threshold < r.ratioNsPerOp) then
    (acc.1 ++ [mkRatioRow r comparedScore], true)
  else if comparedScore.allocedBytesPerOp &&
      decide (r.benchmark.config.threshold < r.ratioAllocedBytesPerOp) then
    (acc.1 ++ [mkRatioRow r comparedScore], true)
  else if onlyRegression then acc
  else (acc.1 ++ [mkRatioRow r comparedScore], acc.2)

/-- Model of `showRatio` without the `io.Writer`: the rendered rows and the
aggregate regression boolean it returns. -/
def showRatio (onlyRegression : Bool) (results : List ResultR) :
    List RatioRow × Bool :=
  results.foldl (showRatioStep onlyRegression) ([], false)

/-! ## The `run` orchestration

External effects are supplied by a `World`: the outcome of each fallible
pre-checkout step, the cleanliness of the working copy, whether each
`w.Reset` succeeds, the tag enumeration, and — abstracting the external
subprocess runner — the result `Set` that `runBenchmarks` produces at a
given commit with a given tag version.  In the source `runBenchmarks`
always returns a `nil` error, but `resetAndRunBenchmark` still checks it,
so the model keeps the error channel (`benchRunErrAt`).  A `GitEvent` is
recorded for every `w.Reset` call, successful or not (`git.HardReset`
mode). -/

inductive GitEvent where
  | hardReset (commit : Nat)
deriving DecidableEq, Repr

inductive RunError where
  | parseFailed
  | openFailed
  | headFailed
  | resolveFailed
  | worktreeFailed
  | statusFailed
  | dirty
  | resetFailed
  | benchFailed
  | releaseFailed
  | regression
deriving DecidableEq, Repr

structure World where
  parseBenchmarksOk : Bool
  benchmarks : BenchmarkList
  flagConfig : BenchmarkConfiguration
  openOk : Bool
  headOk : Bool
  headHash : Nat
  resolveOk : Bool
  prevHash : Nat
  worktreeOk : Bool
  statusOk : Bool
  statusClean : Bool
  resetOk : Nat → Bool
  benchRunErrAt : Nat → String → Bool
  benchSetAt : Nat → String → Set'
  compareLatestVersion : Bool
  tags : Except String (List TagRef)
  onlyRegression : Bool
  baseRef : String

/-- The `resetAndRunBenchmark` closure: hard-reset to the commit (the
event is recorded even when the reset fails), then run the benchmarks
with the tag version set only for tagged revisions. -/
def resetAndRunBenchmark (w : World) (commit : Nat) (ref : String)
    (isTag : Bool) : List GitEvent × Except RunError Set' :=
  if w.resetOk commit then
    let tagVersion := if isTag then ref else ""
    if w.benchRunErrAt commit tagVersion then
      ([GitEvent.hardReset commit], Except.error RunError.benchFailed)
    else
      ([GitEvent.hardReset commit], Except.ok (w.benchSetAt commit tagVersion))
  else
    ([GitEvent.hardReset commit], Except.error RunError.resetFailed)

/-- The deferred scope of `run`: everything after the
`defer w.Reset(head)` registration — `updateBenchmarks`, the three
checkout/benchmark passes, the comparison loop and the regression
verdict.  The deferred restore itself is appended by `run`. -/
def runAfterDefer (w : World) : List GitEvent × Option RunError :=
  let bs := updateBenchmarks w.benchmarks.benchmarks w.benchmarks.config w.flagConfig
  let prevRun := resetAndRunBenchmark w w.prevHash w.baseRef false
  match prevRun.2 with
  | .error e => (prevRun.1, some e)
  | .ok prevSet =>
    -- run benchmark of latestReleaseVersion
    let relStage : List GitEvent × Except RunError (Option Set' × String) :=
      if w.compareLatestVersion then
        match getLatestRelease w.tags with
        | .error _ => ([], .error RunError.releaseFailed)
        | .ok prevVersionTag =>
          -- tagName is prevVersionTag.Name().String(); refs are identified
          -- by their short name here
          let relRun := resetAndRunBenchmark w prevVersionTag.hash prevVersionTag.name true
          match relRun.2 with
          | .error e => (relRun.1, .error e)
          | .ok latestReleaseSet =>
            (relRun.1, .ok (some latestReleaseSet, prevVersionTag.name))
      else ([], .ok (none, ""))
    match relStage.2 with
    | .error e => (prevRun.1 ++ relStage.1, some e)
    | .ok (latestReleaseSet, tagName) =>
      -- run benchmark of HEAD
      let headRun := resetAndRunBenchmark w w.headHash "HEAD" false
      match headRun.2 with
      | .error e => (prevRun.1 ++ relStage.1 ++ headRun.1, some e)
      | .ok headSet =>
        let out := compareLoop headSet prevSet latestReleaseSet w.baseRef tagName bs
        let regression := (showRatio w.onlyRegression out.ratios).2
        let regressionWithLatestVersion :=
          match latestReleaseSet with
          | none => false
          | some _ => (showRatio w.onlyRegression out.ratiosWithRelease).2
        if regression || regressionWithLatestVersion then
          (prevRun.1 ++ relStage.1 ++ headRun.1, some RunError.regression)
        else
          (prevRun.1 ++ relStage.1 ++ headRun.1, none)

/-- Model of `run`: the fallible pre-checkout steps in source order
(`parseBenchmarks`, `git.PlainOpen`, `r.Head()`, `r.ResolveRevision`,
`r.Worktree()`, `w.Status()`, the `s.IsClean()` precondition), then the
deferred-restore scope; the deferred `w.Reset` to the pre-run HEAD is the
final event of every path that reaches it. -/
def run (w : World) : List GitEvent × Option RunError :=
  if !w.parseBenchmarksOk then ([], some RunError.parseFailed)
  else if !w.openOk then ([], some RunError.openFailed)
  else if !w.headOk then ([], some RunError.headFailed)
  else if !w.resolveOk then ([], some RunError.resolveFailed)
  else if !w.worktreeOk then ([], some RunError.worktreeFailed)
  else if !w.statusOk then ([], some RunError.statusFailed)
  else if !w.statusClean then ([], some RunError.dirty)
  else
    let body := runAfterDefer w
    (body.1 ++ [GitEvent.hardReset w.headHash], body.2)

/-! ## Specification-side definitions and fixtures

`ratioPerSpec` and `goDropLeft` phrase what the specification asks of a
ratio and of operator stripping; the `ex*` values are concrete fixtures
used to instantiate theorems. -/

/-- The ratio as the specification words it: `(current − baseline) /
baseline` computed only when the baseline metric is non-zero, else 0. -/
def ratioPerSpec (current baseline : ℚ) : ℚ :=
  if baseline ≠ 0 then (current - baseline) / baseline else 0

/-- Remove exactly the first `n` characters (stripping a literal operator
PREFIX such as `">="`, as opposed to `strings.TrimLeft` cutset
semantics). -/
def goDropLeft (s : String) (n : Nat) : String :=
  String.mk (s.data.drop n)

/-- The regression test of one `showRatio` iteration: some selected
metric's ratio strictly exceeds the threshold. -/
def regressedHit (r : ResultR) : Bool :=
  ((whichScoreToCompare r.benchmark.config.compare).nsPerOp &&
    decide (r.benchmark.config.threshold < r.ratioNsPerOp)) ||
  ((whichScoreToCompare r.benchmark.config.compare).allocedBytesPerOp &&
    decide (r.benchmark.config.threshold < r.ratioAllocedBytesPerOp))

def exCfg : BenchmarkConfiguration :=
  { benchtime := "1s", threshold := 1/5, compare := "ns/op,B/op"
    cpu := "4", timeout := "10m", benchmem := some true }

def exBench : Benchmark :=
  { name := "b", package := "./pkg", uniqueName := "b"
    versionRequirement := "", config := exCfg }

/-- A benchmark whose compare string contains neither exact metric token. -/
def exBenchNoTok : Benchmark :=
  { name := "c", package := "./pkg", uniqueName := "c"
    versionRequirement := ""
    config := { exCfg with compare := "allocs/op", threshold := 0 } }

/-- A result that would regress on any selected metric (huge ratios, zero
threshold) — but whose compare string selects nothing. -/
def exResultNoTok : ResultR :=
  { benchmark := exBenchNoTok, ratioNsPerOp := 100, ratioAllocedBytesPerOp := 100 }

/-- A world in which every pre-checkout step succeeds and the external
collaborators behave trivially. -/
def exWorld : World :=
  { parseBenchmarksOk := true
    benchmarks := { config := exCfg, command := "go", benchmarks := [] }
    flagConfig := exCfg
    openOk := true, headOk := true, headHash := 10
    resolveOk := true, prevHash := 20
    worktreeOk := true, statusOk := true, statusClean := true
    resetOk := fun _ => true
    benchRunErrAt := fun _ _ => false
    benchSetAt := fun _ _ => []
    compareLatestVersion := false
    tags := Except.ok []
    onlyRegression := false
    baseRef := "HEAD~1" }

/-- Variant of `exWorld` with uncommitted changes in the working copy. -/
def exWorldDirty : World := { exWorld with statusClean := false }

/-! ## Helper lemmas -/

theorem rdropWhile_append_rtakeWhile (p : Char → Bool) (l : List Char) :
    List.rdropWhile p l ++ List.rtakeWhile p l = l := by
  rw [List.rdropWhile, List.rtakeWhile, ← List.reverse_append,
    List.takeWhile_append_dropWhile, List.reverse_reverse]

theorem dropWhile_of_rdropWhile_of_dropWhile_self (p : Char → Bool)
    (l : List Char) (h : l.dropWhile p = l) :
    (List.rdropWhile p l).dropWhile p = List.rdropWhile p l := by
  cases hr : List.rdropWhile p l with
  | nil => rfl
  | cons a t =>
    have hdec : (a :: t) ++ List.rtakeWhile p l = l := by
      rw [← hr]; exact rdropWhile_append_rtakeWhile p l
    have hpa : p a = false := by
      rcases hb : p a with _ | _
      · rfl
      · exfalso
        have hx : (a :: t) ++ List.rtakeWhile p l =
            List.dropWhile p (t ++ List.rtakeWhile p l) := by
          calc (a :: t) ++ List.rtakeWhile p l = l := hdec
            _ = List.dropWhile p l := h.symm
            _ = List.dropWhile p ((a :: t) ++ List.rtakeWhile p l) := by rw [hdec]
            _ = List.dropWhile p (a :: (t ++ List.rtakeWhile p l)) := by
                rw [List.cons_append]
            _ = List.dropWhile p (t ++ List.rtakeWhile p l) :=
                List.dropWhile_cons_of_pos hb
        have hlen : ((a :: t) ++ List.rtakeWhile p l).length ≤
            (t ++ List.rtakeWhile p l).length := by
          rw [hx]
          exact (List.dropWhile_suffix p).length_le
        simp [List.length_append] at hlen
    rw [List.dropWhile_cons_of_neg (by simp [hpa])]

theorem trimList_idem (p : Char → Bool) (l : List Char) :
    trimList p (trimList p l) = trimList p l := by
  unfold trimList
  rw [dropWhile_of_rdropWhile_of_dropWhile_self p (l.dropWhile p)
    (List.dropWhile_idempotent p l),
    List.rdropWhile_idempotent]

theorem string_data_mk (l : List Char) : (String.mk l).data = l := rfl

theorem goTrimSpace_idem (s : String) :
    goTrimSpace (goTrimSpace s) = goTrimSpace s := by
  unfold goTrimSpace
  rw [string_data_mk, trimList_idem]

theorem goTrimSpace_empty : goTrimSpace "" = "" := rfl

/-! ## Claim C5 -/

/-- Claim C5 fails on the code: the all-whitespace constraint `"   "` is
not empty, is trimmed to `""`, falls through to the exact-equality branch
against the zero version and rejects the tag `"1.3.0"`, while the claim
demands `versionRequired c t = versionRequired (trim c) (trim t)` and
truth for every all-whitespace constraint — and indeed the fully trimmed
call returns `true`. -/
theorem versionRequired_whitespace_cex :
    versionRequired "   " "1.3.0" = false ∧
    versionRequired (goTrimSpace "   ") (goTrimSpace "1.3.0") = true := by
  exact ⟨by decide, by decide⟩

/-- Claim C5 (amended): `versionRequired` is insensitive to surrounding
whitespace on the CONSTRAINT whenever the trimmed constraint is
non-empty, and an empty constraint accepts every tag; the tag is never
whitespace-trimmed, and a non-empty all-whitespace constraint is an
exact-equality test against the zero version rather than `true`. -/
theorem versionRequired_trim_constraint (c t : String) :
    (goTrimSpace c ≠ "" → versionRequired c t = versionRequired (goTrimSpace c) t) ∧
    versionRequired "" t = true := by
  refine ⟨fun h => ?_, rfl⟩
  have hc : c ≠ "" := by
    intro he
    rw [he, goTrimSpace_empty] at h
    exact h rfl
  unfold versionRequired
  rw [if_neg hc, if_neg h, goTrimSpace_idem]

theorem versionRequired_trim_constraint_witness :
    (versionRequired "  >=1.3.0" "1.2.0" = versionRequired (goTrimSpace "  >=1.3.0") "1.2.0") ∧
    versionRequired "" "1.2.0" = true :=
  ⟨(versionRequired_trim_constraint "  >=1.3.0" "1.2.0").1 (by decide),
    (versionRequired_trim_constraint "  >=1.3.0" "1.2.0").2⟩

/-! ## Claim C6 -/

/-- Claim C6 fails on the code: for the trimmed non-empty constraint
`">==1.3.0"`, which starts with `">="`, the claim reads the remainder
after stripping the `">="` operator — `"=1.3.0"`, an unparseable literal
degrading to the zero version — so it deems the tag `"0.0.1"` accepted;
the code instead strips ALL leading `'>'` and `'='` characters
(`strings.TrimLeft` cutset semantics), compares against `1.3.0`, and
rejects it. -/
theorem versionRequired_operator_strip_cex :
    goTrimSpace ">==1.3.0" = ">==1.3.0" ∧
    goStartsWith ">==1.3.0" ">=" = true ∧
    Version.gte (makeOrZero (trimTagVersion "0.0.1"))
      (makeOrZero (trimTagVersion (goDropLeft ">==1.3.0" 2))) = true ∧
    versionRequired ">==1.3.0" "0.0.1" = false := by
  refine ⟨by decide, by decide, by decide, by decide⟩

/-- Claim C6 (amended): for a trimmed non-empty constraint the dispatch
is as claimed, except that the operator is removed with `strings.TrimLeft`
cutset semantics — every leading `'>'` and `'='` character goes, not just
the two-character prefix — before the leading version-prefix characters
are stripped and the literals are parsed. -/
theorem versionRequired_trimmed_dispatch (c t : String)
    (htrim : goTrimSpace c = c) (hne : c ≠ "") :
    versionRequired c t =
      (if goStartsWith c ">=" then
        Version.gte (makeOrZero (trimTagVersion t))
          (makeOrZero (trimTagVersion (goTrimLeft c ">=")))
      else if goStartsWith c ">" then
        Version.gt (makeOrZero (trimTagVersion t))
          (makeOrZero (trimTagVersion (goTrimLeft c ">")))
      else
        Version.equals (makeOrZero (trimTagVersion t))
          (makeOrZero (trimTagVersion c))) := by
  unfold versionRequired versionRequiredTrimmed
  rw [if_neg hne, htrim]

theorem versionRequired_trimmed_dispatch_witness :
    versionRequired ">=v1.2.0" "1.5.0" =
      (if goStartsWith ">=v1.2.0" ">=" then
        Version.gte (makeOrZero (trimTagVersion "1.5.0"))
          (makeOrZero (trimTagVersion (goTrimLeft ">=v1.2.0" ">=")))
      else if goStartsWith ">=v1.2.0" ">" then
        Version.gt (makeOrZero (trimTagVersion "1.5.0"))
          (makeOrZero (trimTagVersion (goTrimLeft ">=v1.2.0" ">")))
      else
        Version.equals (makeOrZero (trimTagVersion "1.5.0"))
          (makeOrZero (trimTagVersion ">=v1.2.0"))) :=
  versionRequired_trimmed_dispatch ">=v1.2.0" "1.5.0" (by decide) (by decide)

/-! ## Claim C9 -/

theorem applyDefaults_twice_idem (c l f : BenchmarkConfiguration) :
    applyDefaults (applyDefaults (applyDefaults (applyDefaults c l) f) l) f =
      applyDefaults (applyDefaults c l) f := by
  unfold applyDefaults
  simp only [BenchmarkConfiguration.mk.injEq]
  refine ⟨?_, ?_, ?_, ?_, ?_, ?_⟩ <;> split_ifs <;> simp_all

theorem updateBenchmark_idem (l f : BenchmarkConfiguration) (b : Benchmark) :
    updateBenchmark l f (updateBenchmark l f b) = updateBenchmark l f b := by
  cases b with
  | mk nm pk un vr cf =>
    unfold updateBenchmark
    dsimp only
    simp only [Benchmark.mk.injEq]
    refine ⟨trivial, trivial, ?_, trivial, applyDefaults_twice_idem cf l f⟩
    split_ifs <;> simp_all

/-- Claim C9: the defaulting pass is idempotent — unique-name defaulting
to the name then the two-level configuration fill, applied twice, is the
same as applied once, for every benchmark list and pair of default
bundles. -/
theorem updateBenchmarks_idempotent (bs : List Benchmark)
    (l f : BenchmarkConfiguration) :
    updateBenchmarks (updateBenchmarks bs l f) l f = updateBenchmarks bs l f := by
  unfold updateBenchmarks
  rw [List.map_map]
  exact List.map_congr_left fun b _ => updateBenchmark_idem l f b

/-! ## Claim C4 -/

/-- Claim C4: the code contradicts its own "Tag name is a not a valid
semver, skipping" diagnostic — a tag whose name fails semantic-version
parsing is still appended (with the zero version) and can be returned,
and with a single unparseable tag `"foo"` the function returns that tag
instead of the `NoReleaseFound`-style error the claim (and the log
message) require when zero tags parse. -/
theorem getLatestRelease_keeps_unparseable_tag :
    semverMake (trimTagVersion "foo") = none ∧
    getLatestRelease (Except.ok [⟨"foo", 7⟩]) = Except.ok ⟨"foo", 7⟩ :=
  ⟨rfl, rfl⟩

/-! ## Claim C2 -/

/-- Claim C2: the ratio closures guard on the CAPTURED `prevBench` (the
base-ref result) but divide by their `baseBench` parameter, so for the
HEAD-vs-latest-release pair the guard tests the wrong metric.  At HEAD
ns/op = 2, base-ref ns/op = 0, release ns/op = 1, the code publishes a
release time-ratio of 0 although the release-side baseline is 1 and the
specification's formula yields (2 − 1)/1 = 1. -/
theorem releaseRatio_guard_mismatch :
    (compareLoop [("b", ⟨"b", 2, 0⟩)] [("b", ⟨"b", 0, 0⟩)]
        (some [("b", ⟨"b", 1, 0⟩)]) "HEAD~1" "v1.0.0" [exBench]).ratiosWithRelease =
      [⟨exBench, 0, 0⟩] ∧
    ratioPerSpec 2 1 = 1 := by
  constructor
  · rfl
  · norm_num [ratioPerSpec]

/-! ## Claim C8 -/

/-- Claim C8 fails on the code: a benchmark absent from the HEAD result
set is only logged and skipped — the comparison records NO row at all for
it (the missing-data placeholder row exists only for a benchmark absent
from the BASELINE result set), as this one-benchmark instance with an
empty HEAD set shows. -/
theorem missing_head_result_no_row_cex :
    setLookup ([] : Set') exBench.uniqueName = none ∧
    (compareLoop [] [("b", ⟨"b", 1, 1⟩)] none "HEAD~1" "" [exBench]).rows = [] ∧
    (compareLoop [] [("b", ⟨"b", 1, 1⟩)] none "HEAD~1" "" [exBench]).ratios = [] :=
  ⟨rfl, rfl, rfl⟩

/-- Claim C8 (amended): a configured benchmark absent from the HEAD
result set contributes nothing — no row, no ratio — and does not fail the
comparison: the loop behaves exactly as if the benchmark were not
configured. -/
theorem missing_head_result_skips (b : Benchmark) (rest : List Benchmark)
    (headSet prevSet : Set') (rel : Option Set') (baseRef tagName : String)
    (h : setLookup headSet b.uniqueName = none) :
    compareLoop headSet prevSet rel baseRef tagName (b :: rest) =
      compareLoop headSet prevSet rel baseRef tagName rest := by
  simp only [compareLoop, h]

theorem missing_head_result_skips_witness :
    compareLoop [] [("b", ⟨"b", 1, 1⟩)] none "base" "" [exBenchNoTok] =
      compareLoop [] [("b", ⟨"b", 1, 1⟩)] none "base" "" [] :=
  missing_head_result_skips exBenchNoTok [] [] [("b", ⟨"b", 1, 1⟩)] none "base" "" rfl

/-! ## Claims C7 and C10 -/

theorem showRatioStep_flag (o : Bool) (acc : List RatioRow × Bool) (r : ResultR) :
    (showRatioStep o acc r).2 = (acc.2 || regressedHit r) := by
  unfold showRatioStep regressedHit
  rcases h1 : (whichScoreToCompare r.benchmark.config.compare).nsPerOp &&
      decide (r.benchmark.config.threshold < r.ratioNsPerOp) with _ | _ <;>
    rcases h2 : (whichScoreToCompare r.benchmark.config.compare).allocedBytesPerOp &&
        decide (r.benchmark.config.threshold < r.ratioAllocedBytesPerOp) with _ | _ <;>
    rcases o with _ | _ <;>
    simp [h1, h2]

theorem showRatio_foldl_flag (o : Bool) (l : List ResultR)
    (acc : List RatioRow × Bool) :
    (List.foldl (showRatioStep o) acc l).2 = (acc.2 || l.any regressedHit) := by
  induction l generalizing acc with
  | nil => simp
  | cons r rest ih =>
    rw [List.foldl_cons, List.any_cons, ih, showRatioStep_flag, Bool.or_assoc]

/-- Claim C7: `showRatio` returns `true` iff at least one result's
selected metric (per that benchmark's compare string) has a ratio
strictly exceeding that benchmark's threshold — either selected metric
suffices and the whole batch yields one aggregate boolean (the function
is total, so it can raise nothing). -/
theorem showRatio_regressed_iff (o : Bool) (results : List ResultR) :
    (showRatio o results).2 = true ↔
      ∃ r ∈ results,
        ((whichScoreToCompare r.benchmark.config.compare).nsPerOp = true ∧
          r.benchmark.config.threshold < r.ratioNsPerOp) ∨
        ((whichScoreToCompare r.benchmark.config.compare).allocedBytesPerOp = true ∧
          r.benchmark.config.threshold < r.ratioAllocedBytesPerOp) := by
  unfold showRatio
  rw [showRatio_foldl_flag]
  simp [regressedHit, List.any_eq_true, Bool.and_eq_true, decide_eq_true_iff]

/-- Claim C10: `whichScoreToCompare` splits on bare commas and matches
only the exact tokens, so `"ns/op, B/op"` selects only the time metric;
and a result whose compare string yields no recognised token can never
flip the aggregate regression boolean of `showRatio`, whatever its ratios
and threshold. -/
theorem whichScoreToCompare_exact_tokens :
    whichScoreToCompare "ns/op, B/op" = ⟨true, false⟩ ∧
    ∀ (r : ResultR) (l : List ResultR) (o : Bool),
      whichScoreToCompare r.benchmark.config.compare = ⟨false, false⟩ →
      (showRatio o (r :: l)).2 = (showRatio o l).2 := by
  refine ⟨rfl, fun r l o hr => ?_⟩
  unfold showRatio
  rw [showRatio_foldl_flag, showRatio_foldl_flag, List.any_cons]
  have hhit : regressedHit r = false := by
    unfold regressedHit
    rw [hr]
    rfl
  rw [hhit]
  simp

theorem whichScoreToCompare_exact_tokens_witness :
    whichScoreToCompare "ns/op, B/op" = ⟨true, false⟩ ∧
    (showRatio false [exResultNoTok]).2 = (showRatio false []).2 :=
  ⟨whichScoreToCompare_exact_tokens.1,
    whichScoreToCompare_exact_tokens.2 exResultNoTok [] false (by decide)⟩

/-! ## Claims C1 and C3 -/

/-- Every trace of `run` is either empty (an exit before the deferred
restore was registered — and no checkout happens before that point) or
ends with the deferred hard reset to the pre-run HEAD. -/
theorem run_trace_shape (w : World) :
    (run w).1 = [] ∨
      (run w).1 = (runAfterDefer w).1 ++ [GitEvent.hardReset w.headHash] := by
  unfold run
  split
  · exact Or.inl rfl
  split
  · exact Or.inl rfl
  split
  · exact Or.inl rfl
  split
  · exact Or.inl rfl
  split
  · exact Or.inl rfl
  split
  · exact Or.inl rfl
  split
  · exact Or.inl rfl
  exact Or.inr rfl

/-- Claim C1: whenever `run` has performed any hard reset at all, its
final git operation — on every exit path, be it success, a detected
regression, or an error from a later step — is the restoring hard reset
to the pre-run HEAD hash. -/
theorem run_restores_head_on_every_exit (w : World)
    (h : (run w).1 ≠ []) :
    (run w).1.getLast? = some (GitEvent.hardReset w.headHash) := by
  rcases run_trace_shape w with hs | hs
  · exact absurd hs h
  · rw [hs]
    exact List.getLast?_concat _

theorem run_restores_head_on_every_exit_witness :
    (run exWorld).1 ≠ [] ∧
    (run exWorld).1.getLast? = some (GitEvent.hardReset exWorld.headHash) :=
  ⟨by decide, run_restores_head_on_every_exit exWorld (by decide)⟩

/-- Claim C3: a dirty working copy makes `run` fail — with a fatal error
and zero hard resets, so the working copy is untouched — no matter how
the other collaborators behave. -/
theorem dirty_worktree_aborts_before_checkout (w : World)
    (h : w.statusClean = false) :
    (run w).1 = [] ∧ (run w).2.isSome = true := by
  unfold run
  split
  · exact ⟨rfl, rfl⟩
  split
  · exact ⟨rfl, rfl⟩
  split
  · exact ⟨rfl, rfl⟩
  split
  · exact ⟨rfl, rfl⟩
  split
  · exact ⟨rfl, rfl⟩
  split
  · exact ⟨rfl, rfl⟩
  split
  · exact ⟨rfl, rfl⟩
  next hcl => simp [h] at hcl

theorem dirty_worktree_aborts_before_checkout_witness :
    (run exWorldDirty).1 = [] ∧ (run exWorldDirty).2.isSome = true :=
  dirty_worktree_aborts_before_checkout exWorldDirty rfl

end Benchci
